import Mathlib

/-!
# datetime.h : `create_time` and `TM_tm_gmtoff`

A shallow embedding of the two C functions of `src/datetime.h`.

* C objects live in an explicit `World` that is passed from call to call.
* The C library functions `time` and `localtime` are external to the
  repository; their behaviour is taken from the C standard, with the wall
  clock and the local-time conversion of the host as parameters.
* `struct tm *` values are modelled by `TmPtr`, `Long *` values by `LongPtr`.
-/

namespace Datetime

/-- Modelled from the spec: `struct tm` is declared by the system header that
`datetime.h` includes, not by the repository.  The fields are the ones the
spec lists for a broken-down time (year, month, day, hour, minute, second,
day of week, day of year, daylight-saving flag, UTC offset in seconds), under
their C names.  Each field holds the mathematical value of the C object. -/
structure tm where
  tm_sec : Int
  tm_min : Int
  tm_hour : Int
  tm_mday : Int
  tm_mon : Int
  tm_year : Int
  tm_wday : Int
  tm_yday : Int
  tm_isdst : Int
  tm_gmtoff : Int
deriving DecidableEq, Repr

/-- Source line 3: `typedef struct tm TM;` -/
abbrev TM := tm

/-- A value of type `struct tm *`.  `localtime` hands out the address of one
object with static storage duration (`localtime_buf`); `obj a` is the address
of any other `struct tm` object (caller-owned storage). -/
inductive TmPtr where
  | null : TmPtr
  | localtime_buf : TmPtr
  | obj (a : Nat) : TmPtr
deriving DecidableEq, Repr

/-- A value of type `Long *` as this header produces them: the address of the
`tm_gmtoff` member of the `struct tm` object that `t` points to. -/
inductive LongPtr where
  | tm_gmtoff (t : TmPtr) : LongPtr
deriving DecidableEq, Repr

/-- The part of the process and its host that the two functions can see.
`clock` is the reading of the wall clock in seconds since the epoch, `none`
when the calendar time is not available; `localtime_buf` is the content of
the static object inside `localtime`; `objs` maps the address of every other
live `struct tm` object to its content. -/
structure World where
  clock : Option Int
  localtime_buf : tm
  objs : Nat → Option tm

/-- The host side of `localtime`.  `L t` is the broken-down local time of the
instant `t` under the configured zone, `none` when the conversion cannot be
performed.  `residue t b` is what a failed conversion of `t` leaves in the
static buffer whose content was `b` (the C standard does not fix it). -/
structure Host where
  L : Int → Option tm
  residue : Int → tm → tm

/-- The C library call `time(&rawtime)`: the value stored into `rawtime` is
the current calendar time, or `(time_t)(-1)` when it is not available. -/
def time (s : World) : Int :=
  match s.clock with
  | some t => t
  | none => -1

/-- The C library call `localtime(&timer)`: on success the static buffer is
overwritten with the converted record and its address is returned; on failure
a null pointer is returned. -/
def localtime (H : Host) (timer : Int) (s : World) : TmPtr × World :=
  match H.L timer with
  | some r => (TmPtr.localtime_buf, { s with localtime_buf := r })
  | none => (TmPtr.null, { s with localtime_buf := H.residue timer s.localtime_buf })

/-- Source lines 5-11:
```
struct tm* create_time() {
  time_t rawtime;
  struct tm* inf;
  time(&rawtime);
  return localtime(&rawtime);
}
```
The return value of `time` is discarded and `inf` is never used. -/
def create_time (H : Host) (s : World) : TmPtr × World :=
  let rawtime := time s
  localtime H rawtime s

/-- Source lines 13-15:
```
Long* TM_tm_gmtoff(TM* t) {
  return (Long*)(&t->tm_gmtoff);
}
```
Only an address is formed; no object is read or written. -/
def TM_tm_gmtoff (t : TmPtr) : LongPtr :=
  LongPtr.tm_gmtoff t

/-- Reading the `struct tm` object a pointer designates.  A null pointer and
an address with no live object designate nothing. -/
def load_tm (s : World) : TmPtr → Option tm
  | TmPtr.null => none
  | TmPtr.localtime_buf => some s.localtime_buf
  | TmPtr.obj a => s.objs a

/-- Object representation of the value `v` in a two's-complement integer
object of `w` bits. -/
def toBits (w : Nat) (v : Int) : Nat :=
  (v % (2 : Int) ^ w).toNat

/-- Value of the `w`-bit pattern `b` read as a signed integer. -/
def ofBits (w : Nat) (b : Nat) : Int :=
  if b < 2 ^ (w - 1) then (b : Int) else (b : Int) - (2 : Int) ^ w

/-- The values a signed integer object of `w` bits can hold. -/
def LongRange (w : Nat) (v : Int) : Prop :=
  0 < w ∧ -((2 : Int) ^ (w - 1)) ≤ v ∧ v < (2 : Int) ^ (w - 1)

instance (w : Nat) (v : Int) : Decidable (LongRange w v) := by
  unfold LongRange
  infer_instance

/-- Reading a `Long` through a `Long *`.  The pointer is the address of a
`tm_gmtoff` member cast to `Long *`, so the read reinterprets the bits of that
member as a `Long`.  The member type (`long`) and `Long` are declared outside
the repository; `w` is their common width in bits. -/
def load_Long (w : Nat) (s : World) : LongPtr → Option Int
  | LongPtr.tm_gmtoff t => (load_tm s t).map (fun r => ofBits w (toBits w r.tm_gmtoff))

/-- The operation `getCurrentLocalTime` of the spec is `create_time`. -/
abbrev getCurrentLocalTime := create_time

/-- The operation `getUtcOffsetSeconds` of the spec: call `TM_tm_gmtoff` on the
record and read the `Long` that the returned reference designates.  Neither
step stores to any object, so the world is handed back as it was received.
The result is `none` when the reference designates no object. -/
def getUtcOffsetSeconds (w : Nat) (s : World) (t : TmPtr) : Option Int × World :=
  (load_Long w s (TM_tm_gmtoff t), s)

/-! ## Concrete hosts and worlds used for evaluation -/

/-- The record whose fields are all zero. -/
def tm_zero : tm :=
  ⟨0, 0, 0, 0, 0, 0, 0, 0, 0, 0⟩

/-- A zone with the fixed offset `k`: seconds, minutes and hours of the local
clock, the count of local days since the epoch in `tm_yday`, and offset `k`.
The conversion never fails. -/
def fixedZone (k : Int) : Host where
  L := fun t => some
    { tm_zero with
      tm_sec := (t + k) % 60
      tm_min := (t + k) / 60 % 60
      tm_hour := (t + k) / 3600 % 24
      tm_yday := (t + k) / 86400
      tm_gmtoff := k }
  residue := fun _ b => b

/-- A host whose local-time conversion can never be performed. -/
def brokenZone : Host where
  L := fun _ => none
  residue := fun _ b => b

/-- A world with the clock reading `c`, a zeroed static buffer and no other
`struct tm` object. -/
def worldAt (c : Option Int) : World where
  clock := c
  localtime_buf := tm_zero
  objs := fun _ => none

/-- The environment moves the wall clock to the reading `c`; nothing else in
the world changes. -/
def advance (s : World) (c : Option Int) : World :=
  { s with clock := c }

/-- The second of two consecutive calls of `create_time`: the first call is
made in the world `s`, then the clock moves to `c2`, then the second call is
made. -/
def secondCall (H : Host) (s : World) (c2 : Option Int) : TmPtr × World :=
  create_time H (advance (create_time H s).2 c2)

/-- Host configuration whose zone has the fixed offset `k`: every record the
conversion produces carries the offset `k`.  Nothing is said about which
instants convert. -/
def FixedOffset (H : Host) (k : Int) : Prop :=
  ∀ (t : Int) (r : tm), H.L t = some r → r.tm_gmtoff = k

/-- A zone with the fixed offset `k` whose conversion can be performed only for
instants before `lim`, as a C library does when the year of a later instant
does not fit the `int` member `tm_year`. -/
def fixedZoneUpTo (k lim : Int) : Host where
  L := fun t => if t < lim then (fixedZone k).L t else none
  residue := fun _ b => b

/-- The instant a record of `fixedZone` stands for: the local clock fields
counted in seconds, minus the offset. -/
def instantOf (r : tm) : Int :=
  r.tm_sec + 60 * r.tm_min + 3600 * r.tm_hour + 86400 * r.tm_yday - r.tm_gmtoff

/-- A world whose static buffer holds a record with the offset `k`. -/
def worldWithOffset (k : Int) : World where
  clock := some 0
  localtime_buf := { tm_zero with tm_gmtoff := k }
  objs := fun _ => none

/-! ## Helper lemmas -/

theorem ofBits_toBits (w : Nat) (v : Int) (h : LongRange w v) :
    ofBits w (toBits w v) = v := by
  obtain ⟨hw, hlo, hhi⟩ := h
  obtain ⟨n, rfl⟩ : ∃ n, w = n + 1 := ⟨w - 1, by omega⟩
  simp only [Nat.add_sub_cancel] at hlo hhi
  have hpow : (2 : Int) ^ (n + 1) = 2 * 2 ^ n := by ring
  have hpos : (0 : Int) < 2 ^ n := by positivity
  unfold ofBits toBits
  simp only [Nat.add_sub_cancel]
  rw [hpow]
  by_cases hv : 0 ≤ v
  · have hmod : v % (2 * 2 ^ n) = v := Int.emod_eq_of_lt hv (by omega)
    rw [hmod]
    have hlt : v.toNat < 2 ^ n := by
      have : ((v.toNat : Nat) : Int) < ((2 ^ n : Nat) : Int) := by
        rw [Int.toNat_of_nonneg hv]; push_cast; exact hhi
      exact_mod_cast this
    rw [if_pos hlt, Int.toNat_of_nonneg hv]
  · have hmod : v % (2 * 2 ^ n) = v + 2 * 2 ^ n := by
      rw [← Int.add_mul_emod_self_left v (2 * 2 ^ n) 1, mul_one]
      exact Int.emod_eq_of_lt (by omega) (by omega)
    rw [hmod]
    have hnn : 0 ≤ v + 2 * 2 ^ n := by omega
    have hge : ¬ (v + 2 * 2 ^ n).toNat < 2 ^ n := by
      intro hlt
      have : (((v + 2 * 2 ^ n).toNat : Nat) : Int) < ((2 ^ n : Nat) : Int) := by
        exact_mod_cast hlt
      rw [Int.toNat_of_nonneg hnn] at this
      push_cast at this
      omega
    rw [if_neg hge, Int.toNat_of_nonneg hnn]
    ring

theorem create_time_some (H : Host) (s : World) (r : tm) (h : H.L (time s) = some r) :
    create_time H s = (TmPtr.localtime_buf, { s with localtime_buf := r }) := by
  simp only [create_time, localtime, h]

theorem create_time_none (H : Host) (s : World) (h : H.L (time s) = none) :
    create_time H s =
      (TmPtr.null, { s with localtime_buf := H.residue (time s) s.localtime_buf }) := by
  simp only [create_time, localtime, h]

theorem load_create_time (H : Host) (s : World) :
    load_tm (create_time H s).2 (create_time H s).1 = H.L (time s) := by
  cases h : H.L (time s) with
  | none => rw [create_time_none H s h]; rfl
  | some r => rw [create_time_some H s r h]; rfl

theorem fixedZone_fixedOffset (k : Int) : FixedOffset (fixedZone k) k := by
  intro t r h
  simp only [fixedZone, Option.some.injEq] at h
  subst h
  rfl

theorem fixedZoneUpTo_fixedOffset (k lim : Int) : FixedOffset (fixedZoneUpTo k lim) k := by
  intro t r h
  simp only [fixedZoneUpTo] at h
  split at h
  · exact fixedZone_fixedOffset k t r h
  · exact absurd h (by simp)

theorem fixedZone_faithful (k t : Int) (r : tm) (h : (fixedZone k).L t = some r) :
    instantOf r = t := by
  simp only [fixedZone, Option.some.injEq] at h
  subst h
  simp only [instantOf, tm_zero]
  omega

theorem getUtcOffsetSeconds_of_load (w : Nat) (s : World) (t : TmPtr) (r : tm)
    (hr : load_tm s t = some r) (hfit : LongRange w r.tm_gmtoff) :
    (getUtcOffsetSeconds w s t).1 = some r.tm_gmtoff := by
  simp only [getUtcOffsetSeconds, TM_tm_gmtoff, load_Long, hr, Option.map_some',
    ofBits_toBits w r.tm_gmtoff hfit]

theorem getUtcOffsetSeconds_eq_none (w : Nat) (s : World) (t : TmPtr) :
    (getUtcOffsetSeconds w s t).1 = none ↔ load_tm s t = none := by
  simp only [getUtcOffsetSeconds, TM_tm_gmtoff, load_Long, Option.map_eq_none']

/-! ## The claims -/

/-- C1: for every record `r` that a pointer designates, reading the offset
through `TM_tm_gmtoff` yields exactly the value of the field `tm_gmtoff` of
`r`, with no truncation and no change of sign, for every value a `Long` of
the platform width can hold. -/
theorem C1_gmtoff_exact (w : Nat) (s : World) (t : TmPtr) (r : tm)
    (hr : load_tm s t = some r) (hfit : LongRange w r.tm_gmtoff) :
    (getUtcOffsetSeconds w s t).1 = some r.tm_gmtoff :=
  getUtcOffsetSeconds_of_load w s t r hr hfit

/-- Witness of C1: a negative offset (one hour west) held in a 64-bit `Long`
is read back with its sign and magnitude. -/
theorem C1_gmtoff_exact_witness :
    load_tm (worldWithOffset (-3600)) TmPtr.localtime_buf
        = some { tm_zero with tm_gmtoff := -3600 } ∧
      LongRange 64 (-3600) ∧
      (getUtcOffsetSeconds 64 (worldWithOffset (-3600)) TmPtr.localtime_buf).1
        = some (-3600) :=
  ⟨rfl, by decide,
    C1_gmtoff_exact 64 (worldWithOffset (-3600)) TmPtr.localtime_buf
      { tm_zero with tm_gmtoff := -3600 } rfl (by decide)⟩

/-- C2: the offset accessor is a pure read.  Called twice on the same record
it yields the same value; the world after the call is the world before it, so
every field of the record is unchanged; and the value is the same whatever the
wall clock reads. -/
theorem C2_pure_read (w : Nat) (s : World) (t : TmPtr) (c : Option Int) :
    (getUtcOffsetSeconds w (getUtcOffsetSeconds w s t).2 t).1
        = (getUtcOffsetSeconds w s t).1 ∧
      (getUtcOffsetSeconds w s t).2 = s ∧
      load_tm (getUtcOffsetSeconds w s t).2 t = load_tm s t ∧
      (getUtcOffsetSeconds w (advance s c) t).1 = (getUtcOffsetSeconds w s t).1 := by
  refine ⟨rfl, rfl, rfl, ?_⟩
  cases t <;> rfl

/-- C3: `create_time` returns the local-time conversion of the instant that
this very call read from the clock, and it does not cache: of two consecutive
calls the first returns the conversion of the first reading and the second the
conversion of the second reading.  A failed conversion shows as a pointer that
designates no record. -/
theorem C3_returns_conversion_of_now (H : Host) (s : World) (c2 : Option Int) :
    load_tm (create_time H s).2 (create_time H s).1 = H.L (time s) ∧
      load_tm (secondCall H s c2).2 (secondCall H s c2).1
        = H.L (time (advance (create_time H s).2 c2)) :=
  ⟨load_create_time H s, load_create_time H (advance (create_time H s).2 c2)⟩

/-- C4, refuted as stated: the zone is UTC (every record carries the offset 0)
and the clock reads 67768036191676800, an instant whose year does not fit
`tm_year`, so the conversion cannot be performed.  `create_time` returns the
null pointer and the offset accessor yields no value, not 0. -/
theorem C4_counterexample :
    FixedOffset (fixedZoneUpTo 0 67768036191676800) 0 ∧
      LongRange 64 0 ∧
      (create_time (fixedZoneUpTo 0 67768036191676800)
        (worldAt (some 67768036191676800))).1 = TmPtr.null ∧
      (getUtcOffsetSeconds 64
        (create_time (fixedZoneUpTo 0 67768036191676800)
          (worldAt (some 67768036191676800))).2
        (create_time (fixedZoneUpTo 0 67768036191676800)
          (worldAt (some 67768036191676800))).1).1 = none ∧
      (getUtcOffsetSeconds 64
        (create_time (fixedZoneUpTo 0 67768036191676800)
          (worldAt (some 67768036191676800))).2
        (create_time (fixedZoneUpTo 0 67768036191676800)
          (worldAt (some 67768036191676800))).1).1 ≠ some 0 :=
  ⟨fixedZoneUpTo_fixedOffset 0 67768036191676800, by decide, by decide, by decide, by decide⟩

/-- C4 as amended: on a host whose zone has the fixed offset `k` (a value a
`Long` can hold), for every clock reading at which the local-time conversion
succeeds, `create_time` followed by the offset accessor yields exactly `k`. -/
theorem C4_fixed_offset_when_converted (w : Nat) (H : Host) (k : Int) (s : World) (r : tm)
    (hzone : FixedOffset H k) (hk : LongRange w k) (hconv : H.L (time s) = some r) :
    (getUtcOffsetSeconds w (create_time H s).2 (create_time H s).1).1 = some k := by
  have hoff : r.tm_gmtoff = k := hzone (time s) r hconv
  have hload : load_tm (create_time H s).2 (create_time H s).1 = some r := by
    rw [load_create_time, hconv]
  have hfit : LongRange w r.tm_gmtoff := by rw [hoff]; exact hk
  rw [getUtcOffsetSeconds_of_load w _ _ r hload hfit, hoff]

/-- Witness of C4 as amended: the two scenarios of the spec at the clock
reading 1700000000, zone UTC gives 0 and zone UTC+9 gives 32400, with a 64-bit
`Long` and a conversion that stops at 67768036191676800. -/
theorem C4_fixed_offset_when_converted_witness :
    (FixedOffset (fixedZoneUpTo 0 67768036191676800) 0 ∧ LongRange 64 0 ∧
      (fixedZoneUpTo 0 67768036191676800).L (time (worldAt (some 1700000000)))
        = some { tm_zero with tm_sec := 20, tm_min := 13, tm_hour := 22, tm_yday := 19675 } ∧
      (getUtcOffsetSeconds 64
        (create_time (fixedZoneUpTo 0 67768036191676800) (worldAt (some 1700000000))).2
        (create_time (fixedZoneUpTo 0 67768036191676800) (worldAt (some 1700000000))).1).1
          = some 0) ∧
    (FixedOffset (fixedZoneUpTo 32400 67768036191676800) 32400 ∧ LongRange 64 32400 ∧
      (fixedZoneUpTo 32400 67768036191676800).L (time (worldAt (some 1700000000)))
        = some { tm_zero with tm_sec := 20, tm_min := 13, tm_hour := 7, tm_yday := 19676,
                              tm_gmtoff := 32400 } ∧
      (getUtcOffsetSeconds 64
        (create_time (fixedZoneUpTo 32400 67768036191676800) (worldAt (some 1700000000))).2
        (create_time (fixedZoneUpTo 32400 67768036191676800) (worldAt (some 1700000000))).1).1
          = some 32400) :=
  ⟨⟨fixedZoneUpTo_fixedOffset 0 67768036191676800, by decide, by decide,
      C4_fixed_offset_when_converted 64 (fixedZoneUpTo 0 67768036191676800) 0
        (worldAt (some 1700000000))
        { tm_zero with tm_sec := 20, tm_min := 13, tm_hour := 22, tm_yday := 19675 }
        (fixedZoneUpTo_fixedOffset 0 67768036191676800) (by decide) (by decide)⟩,
    ⟨fixedZoneUpTo_fixedOffset 32400 67768036191676800, by decide, by decide,
      C4_fixed_offset_when_converted 64 (fixedZoneUpTo 32400 67768036191676800) 32400
        (worldAt (some 1700000000))
        { tm_zero with tm_sec := 20, tm_min := 13, tm_hour := 7, tm_yday := 19676,
                       tm_gmtoff := 32400 }
        (fixedZoneUpTo_fixedOffset 32400 67768036191676800) (by decide) (by decide)⟩⟩

/-- C5, refuted as stated: the first call is made at clock reading 0, the
second at reading 1.  The record obtained from the first call reads
00:00:00 before the second call and 00:00:01 after it: the second call wrote
into the very object the first pointer designates. -/
theorem C5_counterexample :
    load_tm (create_time (fixedZone 0) (worldAt (some 0))).2
        (create_time (fixedZone 0) (worldAt (some 0))).1 = some tm_zero ∧
      load_tm (secondCall (fixedZone 0) (worldAt (some 0)) (some 1)).2
        (create_time (fixedZone 0) (worldAt (some 0))).1
          = some { tm_zero with tm_sec := 1 } ∧
      load_tm (secondCall (fixedZone 0) (worldAt (some 0)) (some 1)).2
        (create_time (fixedZone 0) (worldAt (some 0))).1
          ≠ load_tm (create_time (fixedZone 0) (worldAt (some 0))).2
              (create_time (fixedZone 0) (worldAt (some 0))).1 := by
  decide

/-- C5 as amended: the record returned by `create_time` is the static buffer
of `localtime`.  When both conversions succeed, the record obtained from the
first call reads, after the second call, as the conversion of the second
clock reading; its fields are the same as before exactly when the two
conversions give equal records.  Every `struct tm` object in caller-owned
storage is left as it was by both calls. -/
theorem C5_shared_buffer (H : Host) (s : World) (c2 : Option Int) (r1 r2 : tm)
    (h1 : H.L (time s) = some r1)
    (h2 : H.L (time (advance (create_time H s).2 c2)) = some r2) :
    load_tm (create_time H s).2 (create_time H s).1 = some r1 ∧
      load_tm (secondCall H s c2).2 (create_time H s).1 = some r2 ∧
      (load_tm (secondCall H s c2).2 (create_time H s).1
          = load_tm (create_time H s).2 (create_time H s).1 ↔ r2 = r1) ∧
      ∀ a : Nat, load_tm (secondCall H s c2).2 (TmPtr.obj a) = load_tm s (TmPtr.obj a) := by
  have e1 : load_tm (create_time H s).2 (create_time H s).1 = some r1 := by
    rw [load_create_time, h1]
  have hp : (create_time H s).1 = TmPtr.localtime_buf := by
    rw [create_time_some H s r1 h1]
  have e2 : load_tm (secondCall H s c2).2 (create_time H s).1 = some r2 := by
    rw [hp]
    unfold secondCall
    rw [create_time_some H _ r2 h2]
    rfl
  refine ⟨e1, e2, ?_, ?_⟩
  · rw [e1, e2, Option.some.injEq]
  · intro a
    unfold secondCall
    rw [create_time_some H _ r2 h2, create_time_some H s r1 h1]
    rfl

/-- Witness of C5 as amended: zone UTC, first call at reading 0, second at
reading 1. -/
theorem C5_shared_buffer_witness :
    (fixedZone 0).L (time (worldAt (some 0))) = some tm_zero ∧
      (fixedZone 0).L
          (time (advance (create_time (fixedZone 0) (worldAt (some 0))).2 (some 1)))
        = some { tm_zero with tm_sec := 1 } ∧
      load_tm (secondCall (fixedZone 0) (worldAt (some 0)) (some 1)).2
        (create_time (fixedZone 0) (worldAt (some 0))).1
          = some { tm_zero with tm_sec := 1 } :=
  ⟨by decide, by decide,
    (C5_shared_buffer (fixedZone 0) (worldAt (some 0)) (some 1) tm_zero
      { tm_zero with tm_sec := 1 } (by decide) (by decide)).2.1⟩

/-- C6, refuted as stated: the clock is unavailable (`time` stores -1) and the
zone is UTC.  The caller receives a pointer to a record, the one for
23:59:59 on the day before the epoch, and no failure. -/
theorem C6_counterexample :
    (worldAt none).clock = none ∧
      (create_time (fixedZone 0) (worldAt none)).1 = TmPtr.localtime_buf ∧
      load_tm (create_time (fixedZone 0) (worldAt none)).2
        (create_time (fixedZone 0) (worldAt none)).1
          = some { tm_zero with tm_sec := 59, tm_min := 59, tm_hour := 23, tm_yday := -1 } := by
  decide

/-- C6 as amended: `create_time` does not look at the result of `time`.  When
the clock is unavailable the call behaves as for the instant -1: it returns
what the local-time conversion gives for -1, a null pointer exactly when that
conversion fails, and the same pointer as a call made with the clock reading
-1. -/
theorem C6_clock_failure_not_reported (H : Host) (s : World) (hclock : s.clock = none) :
    load_tm (create_time H s).2 (create_time H s).1 = H.L (-1) ∧
      ((create_time H s).1 = TmPtr.null ↔ H.L (-1) = none) ∧
      (create_time H s).1 = (create_time H (advance s (some (-1)))).1 := by
  have ht : time s = -1 := by simp only [time, hclock]
  have ht2 : time (advance s (some (-1))) = -1 := rfl
  refine ⟨by rw [load_create_time, ht], ?_, ?_⟩
  · cases h : H.L (-1) with
    | none => rw [create_time_none H s (ht ▸ h)]; simp
    | some r => rw [create_time_some H s r (ht ▸ h)]; simp
  · cases h : H.L (-1) with
    | none =>
      rw [create_time_none H s (ht ▸ h), create_time_none H _ (ht2 ▸ h)]
    | some r =>
      rw [create_time_some H s r (ht ▸ h), create_time_some H _ r (ht2 ▸ h)]

/-- Witness of C6 as amended: clock unavailable, zone UTC+9. -/
theorem C6_clock_failure_not_reported_witness :
    (worldAt none).clock = none ∧
      load_tm (create_time (fixedZone 32400) (worldAt none)).2
        (create_time (fixedZone 32400) (worldAt none)).1 = (fixedZone 32400).L (-1) :=
  ⟨rfl, (C6_clock_failure_not_reported (fixedZone 32400) (worldAt none) rfl).1⟩

/-- C7: `create_time` reports a failed local-time conversion, and only that,
as a null pointer.  The result is null exactly when the conversion of the
instant read from the clock yields no record; it is the address of the static
buffer exactly when the conversion yields one; the pointer then designates
the converted record; and the null pointer designates no record, so the
failure cannot be taken for a record. -/
theorem C7_conversion_failure_is_null (H : Host) (s : World) :
    ((create_time H s).1 = TmPtr.null ↔ H.L (time s) = none) ∧
      ((create_time H s).1 = TmPtr.localtime_buf ↔ (H.L (time s)).isSome = true) ∧
      load_tm (create_time H s).2 (create_time H s).1 = H.L (time s) ∧
      load_tm (create_time H s).2 TmPtr.null = none := by
  refine ⟨?_, ?_, load_create_time H s, rfl⟩
  · cases h : H.L (time s) with
    | none => rw [create_time_none H s h]; simp
    | some r => rw [create_time_some H s r h]; simp
  · cases h : H.L (time s) with
    | none => rw [create_time_none H s h]; simp
    | some r => rw [create_time_some H s r h]; simp

/-- C8, refuted as stated: on a host whose conversion fails, `create_time`
returns the null pointer, and reading the offset through `TM_tm_gmtoff` of
that pointer produces no value; in particular it does not produce 0. -/
theorem C8_counterexample :
    (create_time brokenZone (worldAt (some 1700000000))).1 = TmPtr.null ∧
      (getUtcOffsetSeconds 64 (create_time brokenZone (worldAt (some 1700000000))).2
        (create_time brokenZone (worldAt (some 1700000000))).1).1 = none ∧
      (getUtcOffsetSeconds 64 (create_time brokenZone (worldAt (some 1700000000))).2
        (create_time brokenZone (worldAt (some 1700000000))).1).1 ≠ some 0 := by
  decide

/-- C8 as amended: the offset accessor yields a value exactly for the pointers
that designate a record.  For the null pointer it yields none, and applied to
the result of `create_time` it yields a value exactly when the conversion of
that call succeeded.  There is no default of 0. -/
theorem C8_total_on_records_only (w : Nat) (H : Host) (s : World) (t : TmPtr) :
    ((getUtcOffsetSeconds w s t).1 = none ↔ load_tm s t = none) ∧
      (getUtcOffsetSeconds w s TmPtr.null).1 = none ∧
      ((getUtcOffsetSeconds w (create_time H s).2 (create_time H s).1).1 = none
        ↔ H.L (time s) = none) := by
  refine ⟨getUtcOffsetSeconds_eq_none w s t, rfl, ?_⟩
  rw [getUtcOffsetSeconds_eq_none, load_create_time]

/-- C9, refuted as stated: a zone set 24 hours east of UTC gives a record
whose offset is 86400, and the accessor returns 86400, above the bound
50400. -/
theorem C9_counterexample :
    (getUtcOffsetSeconds 64 (create_time (fixedZone 86400) (worldAt (some 1700000000))).2
        (create_time (fixedZone 86400) (worldAt (some 1700000000))).1).1 = some 86400 ∧
      ¬ ((-43200 : Int) ≤ 86400 ∧ (86400 : Int) ≤ 50400) := by
  decide

/-- C9 as amended: the accessor does not clamp.  For a record whose offset
field holds a value a `Long` can hold, the value returned lies in
[-43200, 50400] exactly when the field of the record lies in that range. -/
theorem C9_range_iff_field_in_range (w : Nat) (s : World) (t : TmPtr) (r : tm)
    (hr : load_tm s t = some r) (hfit : LongRange w r.tm_gmtoff) :
    (∃ v : Int, (getUtcOffsetSeconds w s t).1 = some v ∧ -43200 ≤ v ∧ v ≤ 50400)
      ↔ (-43200 ≤ r.tm_gmtoff ∧ r.tm_gmtoff ≤ 50400) := by
  rw [getUtcOffsetSeconds_of_load w s t r hr hfit]
  constructor
  · rintro ⟨v, hv, hlo, hhi⟩
    rw [Option.some.injEq] at hv
    subst hv
    exact ⟨hlo, hhi⟩
  · rintro ⟨hlo, hhi⟩
    exact ⟨r.tm_gmtoff, rfl, hlo, hhi⟩

/-- Witness of C9 as amended: a record with the offset 50400 (UTC+14), the
upper end of the range, read with a 64-bit `Long`. -/
theorem C9_range_iff_field_in_range_witness :
    load_tm (worldWithOffset 50400) TmPtr.localtime_buf
        = some { tm_zero with tm_gmtoff := 50400 } ∧
      LongRange 64 50400 ∧
      ∃ v : Int, (getUtcOffsetSeconds 64 (worldWithOffset 50400) TmPtr.localtime_buf).1
        = some v ∧ -43200 ≤ v ∧ v ≤ 50400 :=
  ⟨rfl, by decide,
    (C9_range_iff_field_in_range 64 (worldWithOffset 50400) TmPtr.localtime_buf
      { tm_zero with tm_gmtoff := 50400 } rfl (by decide)).2 (by decide)⟩

/-- C10: of two consecutive calls of `create_time`, with the clock at the
second call not behind the clock at the first, the record returned by the
second call does not stand for an earlier instant than the record returned by
the first.  The instant a record stands for is given by any reading `inst` of
records under which the conversion of the host is faithful.  The same holds
when the first record is read again after the second call. -/
theorem C10_monotone (H : Host) (inst : tm → Int) (s : World) (c2 : Option Int)
    (r1 r2 : tm)
    (hfaithful : ∀ (t : Int) (r : tm), H.L t = some r → inst r = t)
    (hclock : time s ≤ time (advance (create_time H s).2 c2))
    (h1 : load_tm (create_time H s).2 (create_time H s).1 = some r1)
    (h2 : load_tm (secondCall H s c2).2 (secondCall H s c2).1 = some r2) :
    inst r1 ≤ inst r2 ∧
      ∀ r : tm, load_tm (secondCall H s c2).2 (create_time H s).1 = some r →
        inst r ≤ inst r2 := by
  rw [load_create_time] at h1
  have h2c : H.L (time (advance (create_time H s).2 c2)) = some r2 := by
    rw [← h2]
    exact (load_create_time H (advance (create_time H s).2 c2)).symm
  have i1 := hfaithful _ _ h1
  have i2 := hfaithful _ _ h2c
  refine ⟨by rw [i1, i2]; exact hclock, ?_⟩
  intro r hr
  have hp : (create_time H s).1 = TmPtr.localtime_buf := by
    rw [create_time_some H s r1 h1]
  rw [hp] at hr
  unfold secondCall at hr
  rw [create_time_some H _ r2 h2c] at hr
  have : r2 = r := by
    simpa [load_tm] using hr
  rw [this]

/-- Witness of C10: zone UTC+9, first call at reading 1700000000, second call
one second later. -/
theorem C10_monotone_witness :
    time (worldAt (some 1700000000))
        ≤ time (advance (create_time (fixedZone 32400) (worldAt (some 1700000000))).2
            (some 1700000001)) ∧
      load_tm (secondCall (fixedZone 32400) (worldAt (some 1700000000)) (some 1700000001)).2
        (secondCall (fixedZone 32400) (worldAt (some 1700000000)) (some 1700000001)).1
          = some { tm_zero with tm_sec := 21, tm_min := 13, tm_hour := 7, tm_yday := 19676,
                                tm_gmtoff := 32400 } ∧
      instantOf { tm_zero with tm_sec := 20, tm_min := 13, tm_hour := 7, tm_yday := 19676,
                               tm_gmtoff := 32400 }
        ≤ instantOf { tm_zero with tm_sec := 21, tm_min := 13, tm_hour := 7, tm_yday := 19676,
                                   tm_gmtoff := 32400 } :=
  ⟨by decide, by decide,
    (C10_monotone (fixedZone 32400) instantOf (worldAt (some 1700000000)) (some 1700000001)
      { tm_zero with tm_sec := 20, tm_min := 13, tm_hour := 7, tm_yday := 19676,
                     tm_gmtoff := 32400 }
      { tm_zero with tm_sec := 21, tm_min := 13, tm_hour := 7, tm_yday := 19676,
                     tm_gmtoff := 32400 }
      (fixedZone_faithful 32400) (by decide) (by decide) (by decide)).1⟩

end Datetime
